import Mathlib

/-!
Verification of the event-sourcing and message-dispatch core of the
protean repository, as a shallow embedding in Lean 4.

Embedded modules:
- `protean/infra/eventing.py` : `EventLog` lifecycle and
  `EventLogRepository.get_next_to_publish`
- `protean/utils/mixins.py` : `Message` construction, serialization and
  the association resolver (`to_event_message`, `to_command_message`),
  handler registries
- `protean/core/event_sourced_aggregate.py` : identifier validation,
  equality and hashing, projection registries and `_apply`

Python dictionaries and JSON payloads are modeled by the inductive
`Json`; the Python standard library pair `json.dumps` / `json.loads`
(external to the repository) is modeled as an abstract inverse pair on
a wrapper type, since JSON text fidelity is a property of the standard
library and not of this code base.  Nondeterministic identifier
generation (`uuid4`, the `Auto` field) is modeled by passing the fresh
identifier as an explicit argument.  Python exceptions are modeled with
`Except`.
-/

/-- Structured payloads (Python dictionaries and JSON values). -/
inductive Json where
  | null : Json
  | bool (b : Bool) : Json
  | num (n : Int) : Json
  | str (s : String) : Json
  | arr (elems : List Json) : Json
  | obj (entries : List (String × Json)) : Json

/-- Exceptions raised by the embedded code. -/
inductive ProteanError where
  | incorrectUsage (msg : String) : ProteanError
  | attributeError : ProteanError
  | keyError : ProteanError
deriving DecidableEq

namespace Eventing

/-- Embeds `EventLog` (protean/infra/eventing.py).  `status` is a string
with choices NEW, PUBLISHED, CONSUMED; timestamps are naturals. -/
structure EventLog where
  message_id : String
  name : String
  type : String
  owner : String
  payload : Json
  version : Int
  status : String
  created_at : Nat
  updated_at : Nat

/-- Embeds `EventLog.touch`: refreshes `updated_at` with the current
time, which is passed explicitly. -/
def EventLog.touch (r : EventLog) (now : Nat) : EventLog :=
  { r with updated_at := now }

/-- Embeds `EventLog.mark_published`: assigns status PUBLISHED and
touches the record.  The source performs no check of the current
status and raises no exception. -/
def EventLog.mark_published (r : EventLog) (now : Nat) : EventLog :=
  ({ r with status := "PUBLISHED" }).touch now

/-- Embeds `EventLog.mark_consumed`: assigns status CONSUMED and
touches the record.  The source performs no check of the current
status and raises no exception. -/
def EventLog.mark_consumed (r : EventLog) (now : Nat) : EventLog :=
  ({ r with status := "CONSUMED" }).touch now

/-- Modelled from the spec: the persistence backend (the DAO layer is
not under src/) filters records by a field value, preserving insertion
order, as `query.filter(status=...)` does. -/
def newRecords (store : List EventLog) : List EventLog :=
  store.filter (fun r => r.status == "NEW")

/-- Modelled from the spec: the persistence backend orders records by
`created_at` ascending with ties kept in insertion order (a stable
sort), as `query.order_by("created_at")` does. -/
def orderByCreatedAt (l : List EventLog) : List EventLog :=
  l.insertionSort (fun a b => a.created_at ≤ b.created_at)

/-- Embeds `EventLogRepository.get_next_to_publish`: filter the store
on status NEW, order by `created_at` ascending, return the first
record (`.all().first`, none when the result set is empty). -/
def get_next_to_publish (store : List EventLog) : Option EventLog :=
  (orderByCreatedAt (newRecords store)).head?

/-- Reference selector: the leftmost record with minimal `created_at`.
Used to characterize the head of the stable sort. -/
def selectFirstMin : List EventLog → Option EventLog
  | [] => none
  | x :: xs =>
    match selectFirstMin xs with
    | none => some x
    | some y => if x.created_at ≤ y.created_at then some x else some y

/-- A concrete NEW record, the oldest of the sample store. -/
def recA : EventLog :=
  { message_id := "m-a", name := "Registered", type := "EVENT", owner := "auth"
    payload := Json.obj [], version := 1, status := "NEW", created_at := 1, updated_at := 1 }

/-- A concrete NEW record inserted after `recA`. -/
def recB : EventLog :=
  { recA with message_id := "m-b", created_at := 2, updated_at := 2 }

/-- A concrete NEW record inserted after `recB`. -/
def recC : EventLog :=
  { recA with message_id := "m-c", created_at := 3, updated_at := 3 }

end Eventing

namespace Mixins

/-- Embeds `MessageMetadata` (protean/utils/mixins.py): kind is EVENT
or COMMAND, owner is the domain name. -/
structure MessageMetadata where
  kind : String
  owner : Option String
  schema_version : Option Int

/-- Embeds `Message` (protean/utils/mixins.py).  `message_id` is an
`Auto` identifier field, generated at construction; `position`,
`global_position` and `time` are filled when the message is loaded
from the store. -/
structure Message where
  message_id : String
  stream_name : String
  type : String
  data : Json
  expected_version : Option Int
  time : Option String
  position : Option Int
  global_position : Option Int
  metadata : MessageMetadata

/-- A JSON text whose parse is `val`.  Models the output of the Python
standard library `json.dumps`, which is external to the repository, so
text fidelity is taken as its documented contract. -/
structure JsonText where
  val : Json

/-- Models `json.dumps` on a structured payload. -/
def jsonDumps (d : Json) : JsonText := ⟨d⟩

/-- Models `json.loads` on a JSON text produced by `jsonDumps`. -/
def jsonLoads (t : JsonText) : Json := t.val

/-- A JSON text holding the fields of a `MessageMetadata`; models the
serialized metadata entry of a persisted message, splatted back with
`MessageMetadata(**json.loads(...))` on load. -/
structure MetadataText where
  val : MessageMetadata

/-- Models `json.dumps` on the metadata value object. -/
def metadataDumps (m : MessageMetadata) : MetadataText := ⟨m⟩

/-- Models `MessageMetadata(**json.loads(...))` on a metadata text. -/
def metadataLoads (t : MetadataText) : MessageMetadata := t.val

/-- The persisted or transmitted representation of a message: the dict
consumed by `Message.from_dict`, with `data` and `metadata` held as
JSON text, and the `message_id` under which the message was stored. -/
structure MessageDict where
  message_id : String
  stream_name : String
  type : String
  data : JsonText
  metadata : MetadataText
  position : Option Int
  global_position : Option Int
  time : Option String

/-- Embeds `Message.from_dict`: rebuilds a `Message` from the persisted
dict, parsing `data` and `metadata` from JSON text.  The dict entry
`message_id` is not read; the `Auto` identifier of the new message is
generated fresh and passed here as `freshId`. -/
def Message.from_dict (freshId : String) (message : MessageDict) : Message :=
  { message_id := freshId
    stream_name := message.stream_name
    type := message.type
    data := jsonLoads message.data
    metadata := metadataLoads message.metadata
    position := message.position
    global_position := message.global_position
    time := message.time
    expected_version := none }

/-- Modelled from the spec: `Message.to_dict` (inherited from
`BaseContainer`, which is not under src/) encodes a message as the
persisted representation from which `from_dict` reconstructs it, the
structured `data` and `metadata` entries carried as JSON text. -/
def Message.to_dict (m : Message) : MessageDict :=
  { message_id := m.message_id
    stream_name := m.stream_name
    type := m.type
    data := jsonDumps m.data
    metadata := metadataDumps m.metadata
    position := m.position
    global_position := m.global_position
    time := m.time }

/-- The `meta_` of an aggregate class, as read by the association
resolver: its declared stream root. -/
structure AggregateClsMeta where
  stream_name : String

/-- The data of a domain event or command instance needed by the
association resolver: its class name, its fully qualified class name,
its `meta_` association options, the value of its identifier field
when `has_id_field` holds, and its payload (`to_dict()`). -/
structure DomainElement where
  className : String
  fqn : String
  aggregate_cls : Option AggregateClsMeta
  stream_name : Option String
  id_value : Option String
  data : Json

/-- Python truthiness of an optional string: None and the empty string
are falsy. -/
def strTruthy : Option String → Bool
  | none => false
  | some s => !(s == "")

/-- Embeds the stream root fallback shared by `to_event_message` and
`to_command_message`: the Python expression `meta_.stream_name or
meta_.aggregate_cls.meta_.stream_name`; with a falsy stream name and
no aggregate the attribute access would raise, which the association
guard makes unreachable. -/
def streamRoot (e : DomainElement) : Except ProteanError String :=
  if strTruthy e.stream_name then .ok (e.stream_name.getD "")
  else
    match e.aggregate_cls with
    | some a => .ok a.stream_name
    | none => .error .attributeError

/-- Embeds `Message.to_event_message`.  `msgId` is the `Auto` id
generated for the new message, `freshId` the `uuid4` drawn when the
event declares no identifier field, `domain` the ambient
`current_domain.domain_name`. -/
def Message.to_event_message (domain msgId freshId : String) (event : DomainElement) :
    Except ProteanError Message :=
  if !(event.aggregate_cls.isSome || strTruthy event.stream_name) then
    .error (.incorrectUsage
      ("Event `" ++ event.className ++ "` needs to be associated with an aggregate or a stream"))
  else
    let identifier := event.id_value.getD freshId
    (streamRoot event).map (fun root =>
      { message_id := msgId
        stream_name := root ++ "-" ++ identifier
        type := event.fqn
        data := event.data
        expected_version := none
        time := none
        position := none
        global_position := none
        metadata := { kind := "EVENT", owner := some domain, schema_version := none } })

/-- Embeds `Message.to_command_message`, the same resolver with the
command stream address and COMMAND metadata kind. -/
def Message.to_command_message (domain msgId freshId : String) (command : DomainElement) :
    Except ProteanError Message :=
  if !(command.aggregate_cls.isSome || strTruthy command.stream_name) then
    .error (.incorrectUsage
      ("Command `" ++ command.className ++ "` needs to be associated with an aggregate or a stream"))
  else
    let identifier := command.id_value.getD freshId
    (streamRoot command).map (fun root =>
      { message_id := msgId
        stream_name := root ++ ":command-" ++ identifier
        type := command.fqn
        data := command.data
        expected_version := none
        time := none
        position := none
        global_position := none
        metadata := { kind := "COMMAND", owner := some domain, schema_version := none } })

end Mixins

namespace ESA

/-- An instance of a concrete `BaseEventSourcedAggregate` subclass as
seen by `__eq__` and `__hash__`: its concrete type (`type(self)`), the
value of its identifier field, and all remaining field values. -/
structure AggregateInstance where
  typeName : String
  idValue : String
  otherFields : List (String × String)

/-- Embeds `BaseEventSourcedAggregate.__eq__`: when the two instances
share the concrete type, compares identifier values; otherwise
False. -/
def aggregateEq (a b : AggregateInstance) : Bool :=
  if a.typeName == b.typeName then a.idValue == b.idValue else false

/-- Embeds `BaseEventSourcedAggregate.__hash__`: the hash of the
identifier value alone; the Python `hash` builtin is modeled by an
arbitrary function on identifier values. -/
def aggregateHash (pyHash : String → Int) (a : AggregateInstance) : Int :=
  pyHash a.idValue

/-- One declared field of a container subclass, with its `identifier`
option. -/
structure FieldDef where
  field_name : String
  identifier : Bool
deriving DecidableEq

/-- A subclass of `BaseEventSourcedAggregate` as seen by
`__init_subclass__`: its name, its abstract option, and its declared
fields in declaration order. -/
structure SubclassDef where
  name : String
  abstract : Bool
  fieldDefs : List FieldDef

/-- Embeds `BaseEventSourcedAggregate.__validate_id_field`: when the
subclass declares fields, the first field marked `identifier` is
assigned as the id field name; when fields exist but none is marked,
an `IncorrectUsageError` naming the subclass is raised; when the
subclass declares no fields at all, the whole check is skipped (the
source guards it with `if fields(subclass):`). -/
def validate_id_field (s : SubclassDef) : Except ProteanError (Option String) :=
  if s.fieldDefs.isEmpty then .ok none
  else
    match s.fieldDefs.find? (fun f => f.identifier) with
    | some f => .ok (some f.field_name)
    | none => .error (.incorrectUsage
        ("Event Sourced Aggregate `" ++ s.name ++ "` needs to have at least one identifier"))

/-- Embeds the validation step of
`BaseEventSourcedAggregate.__init_subclass__`: non abstract subclasses
are validated at type definition time, abstract ones are not. -/
def init_subclass_validate (s : SubclassDef) : Except ProteanError (Option String) :=
  if s.abstract then .ok none else validate_id_field s

/-- A per class registry: event or command type name mapped to the
list of registered functions (`defaultdict(set)`, the empty list on
unknown types); function identities are modeled by strings. -/
def Registry := String → List String

/-- The registries of every class, keyed by class name: the
`_projections` (or `_handlers`) attribute each class carries. -/
def Registries := String → Registry

/-- Embeds the registry initialization done in `__init_subclass__`
(`setattr(subclass, "_projections", defaultdict(set))`, and the
`HandlerMixin._handlers` analogue): the freshly created subclass gets
its own empty mapping; no other class is touched. -/
def initRegistry (rs : Registries) (cls : String) : Registries :=
  fun c => if c = cls then (fun _ => []) else rs c

/-- Embeds registration (`element_cls._projections[name].add(method)`
in the factory, and the `_handlers` analogue): adds a function under a
type name in the registry of one class only. -/
def registerFn (rs : Registries) (cls typeName fn : String) : Registries :=
  fun c =>
    if c = cls then (fun e => if e = typeName then fn :: rs cls e else rs cls e)
    else rs c

/-- The replay machinery of a concrete aggregate class: its projection
registry (`_projections`, a `defaultdict(set)` giving the empty set on
unknown types) and its event class map (`_events_cls_map`).  The type
σ stands for the state of the mutable aggregate instance, ε for typed
event instances. -/
structure AggregateClass (σ ε : Type) where
  projections : String → List (σ → ε → σ)
  events_cls_map : String → Option (Json → ε)

/-- One stored event record as passed to `_apply`: its type name and
its payload as JSON text. -/
structure EventDict where
  type : String
  data : Mixins.JsonText

/-- The loop body of `_apply`: for each registered projection the
typed event is constructed from the decoded payload and folded into
the state; a type absent from `_events_cls_map` would be a Python
`KeyError`, which cannot occur when the loop body runs since both maps
are populated together by the factory. -/
def applyLoop {σ ε : Type} (mk? : Option (Json → ε)) (payload : Json) :
    List (σ → ε → σ) → σ → Except ProteanError σ
  | [], s => .ok s
  | fn :: rest, s =>
    match mk? with
    | none => .error .keyError
    | some mk => applyLoop mk? payload rest (fn s (mk payload))

/-- Embeds `BaseEventSourcedAggregate._apply`: iterates over the
projections registered for the type name of the record; with no
registered projection the loop body never runs and the state is
returned unchanged, without error. -/
def apply_ {σ ε : Type} (cls : AggregateClass σ ε) (s : σ) (ed : EventDict) :
    Except ProteanError σ :=
  applyLoop (cls.events_cls_map ed.type) (Mixins.jsonLoads ed.data) (cls.projections ed.type) s

end ESA

/-- A persisted message representation used in concrete evaluations. -/
def sampleDict : Mixins.MessageDict :=
  { message_id := "stored-1", stream_name := "user-1", type := "auth.Registered"
    data := Mixins.jsonDumps (Json.obj [("email", Json.str "j@d.io")])
    metadata := Mixins.metadataDumps { kind := "EVENT", owner := some "auth", schema_version := none }
    position := some 0, global_position := some 7, time := some "t0" }

/-- An event instance with an explicit stream name and an identifier
field, used in concrete evaluations. -/
def sampleEvent : Mixins.DomainElement :=
  { className := "Subscribed", fqn := "subscriptions.Subscribed"
    aggregate_cls := none, stream_name := some "subscriptions"
    id_value := some "42", data := Json.obj [] }

/-- A command instance associated with an aggregate and without an
identifier field, used in concrete evaluations. -/
def sampleCommand : Mixins.DomainElement :=
  { className := "Register", fqn := "auth.Register"
    aggregate_cls := some { stream_name := "user" }, stream_name := none
    id_value := none, data := Json.obj [] }

/-- An element with neither an aggregate association nor a stream
name, used in concrete evaluations. -/
def orphanElement : Mixins.DomainElement :=
  { className := "Register", fqn := "auth.Register"
    aggregate_cls := none, stream_name := none
    id_value := some "42", data := Json.obj [] }

/-- A concrete aggregate class with an empty projection registry, used
in concrete evaluations; its state is a natural number. -/
def emptyRegistryClass : ESA.AggregateClass Nat Json :=
  { projections := fun _ => [], events_cls_map := fun _ => none }

/-- A stored event record whose type has no registered projection in
`emptyRegistryClass`. -/
def unknownEventDict : ESA.EventDict :=
  { type := "auth.Unknown", data := Mixins.jsonDumps (Json.obj []) }

/-- A non abstract subclass declaring no fields at all. -/
def noFieldAgg : ESA.SubclassDef :=
  { name := "Minimal", abstract := false, fieldDefs := [] }

/-- A non abstract subclass declaring fields, none marked identifier. -/
def noIdAgg : ESA.SubclassDef :=
  { name := "Broken", abstract := false
    fieldDefs := [{ field_name := "email", identifier := false }] }

/-- A non abstract subclass declaring an identifier field. -/
def goodAgg : ESA.SubclassDef :=
  { name := "User", abstract := false
    fieldDefs := [{ field_name := "id", identifier := true },
                  { field_name := "email", identifier := false }] }

/-- Concrete aggregate instances sharing type and identifier but
differing in the remaining fields. -/
def instU1 : ESA.AggregateInstance :=
  { typeName := "User", idValue := "1", otherFields := [("name", "John")] }

/-- Same type and identifier as `instU1`, different remaining fields. -/
def instU1b : ESA.AggregateInstance :=
  { typeName := "User", idValue := "1", otherFields := [("name", "Jane")] }

/-- Same type as `instU1`, different identifier. -/
def instU2 : ESA.AggregateInstance :=
  { typeName := "User", idValue := "2", otherFields := [("name", "John")] }

/-- Same identifier as `instU1`, different concrete type. -/
def instE1 : ESA.AggregateInstance :=
  { typeName := "Email", idValue := "1", otherFields := [] }

namespace Eventing

lemma selectFirstMin_eq_none_iff (l : List EventLog) :
    selectFirstMin l = none ↔ l = [] := by
  cases l with
  | nil => simp [selectFirstMin]
  | cons x xs =>
    constructor
    · intro h
      exfalso
      simp only [selectFirstMin] at h
      cases hxs : selectFirstMin xs with
      | none =>
        rw [hxs] at h
        have h2 : (some x : Option EventLog) = none := h
        exact Option.noConfusion h2
      | some y =>
        rw [hxs] at h
        have h2 : (if x.created_at ≤ y.created_at then some x else some y) = none := h
        by_cases hxy : x.created_at ≤ y.created_at
        · rw [if_pos hxy] at h2; exact Option.noConfusion h2
        · rw [if_neg hxy] at h2; exact Option.noConfusion h2
    · intro h
      exact absurd h (List.cons_ne_nil x xs)

lemma head?_orderByCreatedAt_eq_selectFirstMin (l : List EventLog) :
    (orderByCreatedAt l).head? = selectFirstMin l := by
  induction l with
  | nil => rfl
  | cons x xs ih =>
    unfold orderByCreatedAt at *
    simp only [List.insertionSort]
    cases h : List.insertionSort (fun a b => a.created_at ≤ b.created_at) xs with
    | nil =>
      rw [h] at ih
      simp only [selectFirstMin, ← ih]
      rfl
    | cons y t =>
      rw [h] at ih
      simp only [selectFirstMin, ← ih]
      simp only [List.orderedInsert, List.head?_cons]
      split <;> rfl

lemma selectFirstMin_spec :
    ∀ (l : List EventLog) (r : EventLog), selectFirstMin l = some r →
      ∃ l₁ l₂, l = l₁ ++ r :: l₂ ∧
        (∀ s ∈ l₁, r.created_at < s.created_at) ∧
        (∀ s ∈ l₂, r.created_at ≤ s.created_at)
  | [], r, h => by simp [selectFirstMin] at h
  | x :: xs, r, h => by
    simp only [selectFirstMin] at h
    cases hxs : selectFirstMin xs with
    | none =>
      rw [hxs] at h
      have h2 : (some x : Option EventLog) = some r := h
      simp only [Option.some.injEq] at h2
      subst h2
      have hnil : xs = [] := (selectFirstMin_eq_none_iff xs).mp hxs
      subst hnil
      exact ⟨[], [], rfl, by simp, by simp⟩
    | some y =>
      rw [hxs] at h
      have h2 : (if x.created_at ≤ y.created_at then some x else some y) = some r := h
      obtain ⟨m₁, m₂, hdec, hlt, hle⟩ := selectFirstMin_spec xs y hxs
      by_cases hxy : x.created_at ≤ y.created_at
      · rw [if_pos hxy] at h2
        simp only [Option.some.injEq] at h2
        subst h2
        refine ⟨[], xs, rfl, by simp, ?_⟩
        intro s hs
        rw [hdec] at hs
        rcases List.mem_append.mp hs with hs₁ | hs₂
        · exact le_trans hxy (le_of_lt (hlt s hs₁))
        · rcases List.mem_cons.mp hs₂ with hy | hm₂
          · rw [hy]; exact hxy
          · exact le_trans hxy (hle s hm₂)
      · rw [if_neg hxy] at h2
        simp only [Option.some.injEq] at h2
        subst h2
        refine ⟨x :: m₁, m₂, by rw [hdec]; rfl, ?_, hle⟩
        intro s hs
        rcases List.mem_cons.mp hs with hx | hm₁
        · rw [hx]; exact lt_of_not_le hxy
        · exact hlt s hm₁

end Eventing

/-- Claim C1, counterexample: calling `mark_consumed` on a stored
record whose status is NEW does not raise a StateTransitionError (the
embedded operation is total and no such exception exists in the code)
and does not leave the status unchanged: the status jumps straight to
CONSUMED. -/
theorem c1_counterexample_mark_consumed_on_new :
    Eventing.recA.status = "NEW" ∧
    (Eventing.recA.mark_consumed 5).status = "CONSUMED" ∧
    (Eventing.recA.mark_consumed 5).status ≠ Eventing.recA.status :=
  ⟨rfl, rfl, by decide⟩

/-- Claim C1, amended: `mark_published` assigns status PUBLISHED and
`mark_consumed` assigns status CONSUMED unconditionally; the source
checks nothing and raises no error on out of order calls, and any
sequence of calls leaves the status inside NEW, PUBLISHED, CONSUMED,
with `mark_published` twice still yielding PUBLISHED. -/
theorem c1_amended_status_assignment (r : Eventing.EventLog) (t u : Nat) :
    (r.mark_published t).status = "PUBLISHED" ∧
    (r.mark_consumed t).status = "CONSUMED" ∧
    ((r.mark_published t).mark_published u).status = "PUBLISHED" ∧
    ((r.mark_consumed t).mark_published u).status = "PUBLISHED" ∧
    ((r.mark_published t).mark_consumed u).status = "CONSUMED" :=
  ⟨rfl, rfl, rfl, rfl, rfl⟩

/-- Claim C2, evaluation at the failing input: applying a stored record
whose type has no registered projection returns normally with the
aggregate state unchanged — `_projections` is a defaultdict, so the
loop body never runs; no UnknownProjectionError is raised (the source
FIXME marks the missing handling). -/
theorem c2_apply_unknown_type_silent_noop :
    ESA.apply_ emptyRegistryClass 5 unknownEventDict = Except.ok 5 ∧
    emptyRegistryClass.projections unknownEventDict.type = [] :=
  ⟨rfl, rfl⟩

/-- Claim C3, confirmed: encoding a Message with `to_dict` and decoding
the result with `Message.from_dict` yields a Message whose
stream_name, type, data and metadata are identical to the originals. -/
theorem c3_message_serialization_roundtrip (gen : String) (m : Mixins.Message) :
    (Mixins.Message.from_dict gen m.to_dict).stream_name = m.stream_name ∧
    (Mixins.Message.from_dict gen m.to_dict).type = m.type ∧
    (Mixins.Message.from_dict gen m.to_dict).data = m.data ∧
    (Mixins.Message.from_dict gen m.to_dict).metadata = m.metadata :=
  ⟨rfl, rfl, rfl, rfl⟩

/-- Claim C7, confirmed: equality and hashing of event sourced
aggregates depend only on the concrete type and the identifier value:
same type and identifier are equal with equal hashes regardless of the
other field values, differing identifiers are never equal, and
differing types are never equal even with equal identifiers. -/
theorem c7_identity_equality_hash (pyHash : String → Int) (a b : ESA.AggregateInstance) :
    (a.typeName = b.typeName → a.idValue = b.idValue →
      ESA.aggregateEq a b = true ∧
      ESA.aggregateHash pyHash a = ESA.aggregateHash pyHash b) ∧
    (a.idValue ≠ b.idValue → ESA.aggregateEq a b = false) ∧
    (a.typeName ≠ b.typeName → ESA.aggregateEq a b = false) := by
  refine ⟨fun h1 h2 => ⟨?_, ?_⟩, fun h => ?_, fun h => ?_⟩
  · simp [ESA.aggregateEq, h1, h2]
  · simp [ESA.aggregateHash, h2]
  · by_cases ht : a.typeName = b.typeName <;> simp [ESA.aggregateEq, ht, h]
  · simp [ESA.aggregateEq, h]

/-- Witness for C7 at concrete aggregate instances. -/
theorem c7_witness :
    (ESA.aggregateEq instU1 instU1b = true ∧
      ESA.aggregateHash (fun s => (s.length : Int)) instU1 =
        ESA.aggregateHash (fun s => (s.length : Int)) instU1b) ∧
    ESA.aggregateEq instU1 instU2 = false ∧
    ESA.aggregateEq instU1 instE1 = false :=
  ⟨(c7_identity_equality_hash (fun s => (s.length : Int)) instU1 instU1b).1 rfl rfl,
   (c7_identity_equality_hash (fun s => (s.length : Int)) instU1 instU2).2.1 (by decide),
   (c7_identity_equality_hash (fun s => (s.length : Int)) instU1 instE1).2.2 (by decide)⟩

/-- Claim C10, confirmed: `Message.from_dict` copies stream_name, type,
data, metadata, position, global_position and time from the input
dict, never reads its message_id entry, and gives the reconstructed
message the freshly generated identifier, which therefore differs from
the stored one whenever the generated identifier is new. -/
theorem c10_from_dict_regenerates_message_id (gen : String) (d : Mixins.MessageDict) :
    (Mixins.Message.from_dict gen d).message_id = gen ∧
    (Mixins.Message.from_dict gen d).stream_name = d.stream_name ∧
    (Mixins.Message.from_dict gen d).type = d.type ∧
    (Mixins.Message.from_dict gen d).data = Mixins.jsonLoads d.data ∧
    (Mixins.Message.from_dict gen d).metadata = Mixins.metadataLoads d.metadata ∧
    (Mixins.Message.from_dict gen d).position = d.position ∧
    (Mixins.Message.from_dict gen d).global_position = d.global_position ∧
    (Mixins.Message.from_dict gen d).time = d.time ∧
    (∀ id2, Mixins.Message.from_dict gen { d with message_id := id2 } =
      Mixins.Message.from_dict gen d) ∧
    (gen ≠ d.message_id → (Mixins.Message.from_dict gen d).message_id ≠ d.message_id) :=
  ⟨rfl, rfl, rfl, rfl, rfl, rfl, rfl, rfl, fun _ => rfl, fun h => h⟩

/-- Witness for C10 at a concrete persisted representation. -/
theorem c10_witness :
    (Mixins.Message.from_dict "fresh-9" sampleDict).message_id = "fresh-9" ∧
    (Mixins.Message.from_dict "fresh-9" sampleDict).message_id ≠ sampleDict.message_id :=
  ⟨(c10_from_dict_regenerates_message_id "fresh-9" sampleDict).1,
   (c10_from_dict_regenerates_message_id "fresh-9" sampleDict).2.2.2.2.2.2.2.2.2 (by decide)⟩

lemma streamRoot_of_stream (e : Mixins.DomainElement) (s : String)
    (hs : e.stream_name = some s) (hne : s ≠ "") :
    Mixins.streamRoot e = Except.ok s := by
  have ht : Mixins.strTruthy e.stream_name = true := by
    rw [hs]; simp [Mixins.strTruthy, hne]
  unfold Mixins.streamRoot
  rw [if_pos ht, hs]
  rfl

lemma streamRoot_of_aggregate (e : Mixins.DomainElement) (a : Mixins.AggregateClsMeta)
    (hs : e.stream_name = none) (ha : e.aggregate_cls = some a) :
    Mixins.streamRoot e = Except.ok a.stream_name := by
  unfold Mixins.streamRoot
  rw [hs]
  simp [Mixins.strTruthy, ha]

lemma to_event_message_ok (domain msgId freshId : String) (e : Mixins.DomainElement)
    (root : String) (hg : (e.aggregate_cls.isSome || Mixins.strTruthy e.stream_name) = true)
    (hr : Mixins.streamRoot e = Except.ok root) :
    Mixins.Message.to_event_message domain msgId freshId e =
      Except.ok
        { message_id := msgId
          stream_name := root ++ "-" ++ (e.id_value.getD freshId)
          type := e.fqn, data := e.data, expected_version := none
          time := none, position := none, global_position := none
          metadata := { kind := "EVENT", owner := some domain, schema_version := none } } := by
  unfold Mixins.Message.to_event_message
  rw [hg]
  simp [hr, Except.map]

lemma to_command_message_ok (domain msgId freshId : String) (c : Mixins.DomainElement)
    (root : String) (hg : (c.aggregate_cls.isSome || Mixins.strTruthy c.stream_name) = true)
    (hr : Mixins.streamRoot c = Except.ok root) :
    Mixins.Message.to_command_message domain msgId freshId c =
      Except.ok
        { message_id := msgId
          stream_name := root ++ ":command-" ++ (c.id_value.getD freshId)
          type := c.fqn, data := c.data, expected_version := none
          time := none, position := none, global_position := none
          metadata := { kind := "COMMAND", owner := some domain, schema_version := none } } := by
  unfold Mixins.Message.to_command_message
  rw [hg]
  simp [hr, Except.map]

/-- Claim C4, confirmed: an event or command whose type declares
neither an aggregate association nor a stream name fails message
construction with an IncorrectUsageError naming the offending type,
and whenever at least one of the two is declared no such error is
raised. -/
theorem c4_association_error_naming (domain msgId freshId : String)
    (e : Mixins.DomainElement) :
    (e.aggregate_cls = none → e.stream_name = none →
      Mixins.Message.to_event_message domain msgId freshId e =
        Except.error (ProteanError.incorrectUsage
          ("Event `" ++ e.className ++ "` needs to be associated with an aggregate or a stream")) ∧
      Mixins.Message.to_command_message domain msgId freshId e =
        Except.error (ProteanError.incorrectUsage
          ("Command `" ++ e.className ++ "` needs to be associated with an aggregate or a stream"))) ∧
    ((e.aggregate_cls.isSome = true ∨ Mixins.strTruthy e.stream_name = true) →
      (∃ m, Mixins.Message.to_event_message domain msgId freshId e = Except.ok m) ∧
      (∃ m, Mixins.Message.to_command_message domain msgId freshId e = Except.ok m)) := by
  constructor
  · intro h1 h2
    constructor
    · unfold Mixins.Message.to_event_message
      simp [h1, h2, Mixins.strTruthy]
    · unfold Mixins.Message.to_command_message
      simp [h1, h2, Mixins.strTruthy]
  · intro h
    have hg : (e.aggregate_cls.isSome || Mixins.strTruthy e.stream_name) = true := by
      rcases h with h | h <;> simp [h]
    have hroot : ∃ s, Mixins.streamRoot e = Except.ok s := by
      unfold Mixins.streamRoot
      by_cases ht : Mixins.strTruthy e.stream_name = true
      · rw [if_pos ht]; exact ⟨_, rfl⟩
      · rw [if_neg ht]
        cases ha : e.aggregate_cls with
        | some a => exact ⟨_, rfl⟩
        | none =>
          exfalso
          rcases h with h | h
          · rw [ha] at h; simp at h
          · exact ht h
    obtain ⟨s, hs⟩ := hroot
    exact ⟨⟨_, to_event_message_ok domain msgId freshId e s hg hs⟩,
           ⟨_, to_command_message_ok domain msgId freshId e s hg hs⟩⟩

/-- Witness for C4: a concrete unassociated element raises the naming
error; a concrete aggregate associated command raises nothing. -/
theorem c4_witness :
    Mixins.Message.to_event_message "auth" "m1" "u1" orphanElement =
      Except.error (ProteanError.incorrectUsage
        ("Event `" ++ orphanElement.className ++ "` needs to be associated with an aggregate or a stream")) ∧
    (∃ m, Mixins.Message.to_command_message "auth" "m1" "u1" sampleCommand = Except.ok m) :=
  ⟨((c4_association_error_naming "auth" "m1" "u1" orphanElement).1 rfl rfl).1,
   ((c4_association_error_naming "auth" "m1" "u1" sampleCommand).2 (Or.inl rfl)).2⟩

/-- Claim C5, confirmed: with an association declared, the event
message address is the stream root followed by a dash and the
identifier, the command message address is the root followed by
`:command-` and the identifier, where the root is the explicit stream
name on the own metadata when present and the associated aggregate
stream root otherwise, and the identifier is the own identifier field
value when declared and the freshly generated one otherwise. -/
theorem c5_stream_address_composition (domain msgId freshId : String)
    (e c : Mixins.DomainElement) :
    (∀ s, e.stream_name = some s → s ≠ "" →
      ∃ m, Mixins.Message.to_event_message domain msgId freshId e = Except.ok m ∧
        m.stream_name = s ++ "-" ++ (e.id_value.getD freshId)) ∧
    (e.stream_name = none → ∀ a, e.aggregate_cls = some a →
      ∃ m, Mixins.Message.to_event_message domain msgId freshId e = Except.ok m ∧
        m.stream_name = a.stream_name ++ "-" ++ (e.id_value.getD freshId)) ∧
    (∀ s, c.stream_name = some s → s ≠ "" →
      ∃ m, Mixins.Message.to_command_message domain msgId freshId c = Except.ok m ∧
        m.stream_name = s ++ ":command-" ++ (c.id_value.getD freshId)) ∧
    (c.stream_name = none → ∀ a, c.aggregate_cls = some a →
      ∃ m, Mixins.Message.to_command_message domain msgId freshId c = Except.ok m ∧
        m.stream_name = a.stream_name ++ ":command-" ++ (c.id_value.getD freshId)) := by
  refine ⟨?_, ?_, ?_, ?_⟩
  · intro s hs hne
    have ht : Mixins.strTruthy e.stream_name = true := by
      rw [hs]; simp [Mixins.strTruthy, hne]
    have hg : (e.aggregate_cls.isSome || Mixins.strTruthy e.stream_name) = true := by
      simp [ht]
    exact ⟨_, to_event_message_ok domain msgId freshId e s hg
      (streamRoot_of_stream e s hs hne), rfl⟩
  · intro hs a ha
    have hg : (e.aggregate_cls.isSome || Mixins.strTruthy e.stream_name) = true := by
      simp [ha]
    exact ⟨_, to_event_message_ok domain msgId freshId e a.stream_name hg
      (streamRoot_of_aggregate e a hs ha), rfl⟩
  · intro s hs hne
    have ht : Mixins.strTruthy c.stream_name = true := by
      rw [hs]; simp [Mixins.strTruthy, hne]
    have hg : (c.aggregate_cls.isSome || Mixins.strTruthy c.stream_name) = true := by
      simp [ht]
    exact ⟨_, to_command_message_ok domain msgId freshId c s hg
      (streamRoot_of_stream c s hs hne), rfl⟩
  · intro hs a ha
    have hg : (c.aggregate_cls.isSome || Mixins.strTruthy c.stream_name) = true := by
      simp [ha]
    exact ⟨_, to_command_message_ok domain msgId freshId c a.stream_name hg
      (streamRoot_of_aggregate c a hs ha), rfl⟩

/-- Witness for C5: an event with explicit stream root and identifier
42 is addressed to subscriptions-42; a command associated with the
user aggregate and without an identifier field is addressed to
user:command-F with the fresh identifier F. -/
theorem c5_witness :
    (∃ m, Mixins.Message.to_event_message "auth" "m1" "u1" sampleEvent = Except.ok m ∧
      m.stream_name = "subscriptions-42") ∧
    (∃ m, Mixins.Message.to_command_message "auth" "m1" "F" sampleCommand = Except.ok m ∧
      m.stream_name = "user:command-F") := by
  constructor
  · obtain ⟨m, hm, hn⟩ :=
      (c5_stream_address_composition "auth" "m1" "u1" sampleEvent sampleCommand).1
        "subscriptions" rfl (by decide)
    exact ⟨m, hm, by rw [hn]; decide⟩
  · obtain ⟨m, hm, hn⟩ :=
      (c5_stream_address_composition "auth" "m1" "F" sampleEvent sampleCommand).2.2.2
        rfl { stream_name := "user" } rfl
    exact ⟨m, hm, by rw [hn]; decide⟩

/-- Claim C8, counterexample: a non abstract subclass declaring no
fields at all declares no identifier field, yet subclass creation
raises nothing — the source guards the whole check with
`if fields(subclass):` and skips it on an empty field map. -/
theorem c8_counterexample_no_fields :
    noFieldAgg.abstract = false ∧
    noFieldAgg.fieldDefs = [] ∧
    ESA.init_subclass_validate noFieldAgg = Except.ok none :=
  ⟨rfl, rfl, rfl⟩

/-- Claim C8, amended: for a non abstract subclass that declares at
least one field, absence of a field marked identifier raises an
IncorrectUsageError naming the subclass at type definition time, and
a subclass declaring an identifier field is defined without error; a
subclass declaring no fields at all is also defined without error. -/
theorem c8_amended_identifier_validation (s : ESA.SubclassDef) (hab : s.abstract = false) :
    (s.fieldDefs ≠ [] → (∀ f ∈ s.fieldDefs, f.identifier = false) →
      ESA.init_subclass_validate s = Except.error (ProteanError.incorrectUsage
        ("Event Sourced Aggregate `" ++ s.name ++ "` needs to have at least one identifier"))) ∧
    ((∃ f ∈ s.fieldDefs, f.identifier = true) →
      ∃ r, ESA.init_subclass_validate s = Except.ok r) ∧
    (s.fieldDefs = [] → ESA.init_subclass_validate s = Except.ok none) := by
  have hval : ESA.init_subclass_validate s = ESA.validate_id_field s := by
    unfold ESA.init_subclass_validate
    rw [hab]
    simp
  refine ⟨?_, ?_, ?_⟩
  · intro hne hall
    have hempty : s.fieldDefs.isEmpty = false := by
      cases hfd : s.fieldDefs with
      | nil => exact absurd hfd hne
      | cons x xs => rfl
    have hfind : s.fieldDefs.find? (fun f => f.identifier) = none := by
      rw [List.find?_eq_none]
      intro f hf
      simp [hall f hf]
    rw [hval]
    unfold ESA.validate_id_field
    rw [hempty, hfind]
    rfl
  · intro hex
    have hfind : (s.fieldDefs.find? (fun f => f.identifier)).isSome := by
      rw [List.find?_isSome]
      obtain ⟨f, hf, hid⟩ := hex
      exact ⟨f, hf, hid⟩
    obtain ⟨g, hg⟩ := Option.isSome_iff_exists.mp hfind
    have hmem : g ∈ s.fieldDefs := List.mem_of_find?_eq_some hg
    have hempty : s.fieldDefs.isEmpty = false := by
      cases hfd : s.fieldDefs with
      | nil => rw [hfd] at hmem; exact absurd hmem (List.not_mem_nil g)
      | cons x xs => rfl
    refine ⟨some g.field_name, ?_⟩
    rw [hval]
    unfold ESA.validate_id_field
    rw [hempty, hg]
    rfl
  · intro hfd
    rw [hval]
    unfold ESA.validate_id_field
    rw [hfd]
    rfl

/-- Witness for C8 at concrete subclasses: fields without identifier
raise the naming error, an identifier field defines cleanly. -/
theorem c8_witness :
    ESA.init_subclass_validate noIdAgg = Except.error (ProteanError.incorrectUsage
      ("Event Sourced Aggregate `" ++ noIdAgg.name ++ "` needs to have at least one identifier")) ∧
    (∃ r, ESA.init_subclass_validate goodAgg = Except.ok r) :=
  ⟨(c8_amended_identifier_validation noIdAgg rfl).1 (by decide) (by decide),
   (c8_amended_identifier_validation goodAgg rfl).2.1
     ⟨{ field_name := "id", identifier := true }, by decide, rfl⟩⟩

/-- Claim C9, confirmed: registries are isolated per concrete type: at
subclass creation the subclass gets its own fresh empty mapping while
every other class keeps its registry, and registering a function on
one class changes no other registry (in particular not the base one),
while it does land in the registry of the class it was made on. -/
theorem c9_registry_isolation (rs : ESA.Registries) (c1 c2 et fn : String) (h : c1 ≠ c2) :
    ESA.initRegistry rs c1 c1 = (fun _ => []) ∧
    ESA.initRegistry rs c1 c2 = rs c2 ∧
    ESA.registerFn rs c1 et fn c2 = rs c2 ∧
    ESA.registerFn rs c1 et fn c1 et = fn :: rs c1 et := by
  have h2 : ¬(c2 = c1) := fun hh => h hh.symm
  refine ⟨?_, ?_, ?_, ?_⟩
  · simp [ESA.initRegistry]
  · simp [ESA.initRegistry, h2]
  · simp [ESA.registerFn, h2]
  · simp [ESA.registerFn]

/-- Witness for C9 with two concrete subclasses: registering on User
leaves the Email registry untouched and lands under the event type on
User. -/
theorem c9_witness :
    ESA.registerFn (fun _ => fun _ => []) "User" "auth.Registered" "send_email" "Email" =
      (fun _ => ([] : List String)) ∧
    ESA.registerFn (fun _ => fun _ => []) "User" "auth.Registered" "send_email"
      "User" "auth.Registered" = ["send_email"] :=
  ⟨(c9_registry_isolation (fun _ => fun _ => []) "User" "Email" "auth.Registered"
      "send_email" (by decide)).2.2.1,
   (c9_registry_isolation (fun _ => fun _ => []) "User" "Email" "auth.Registered"
      "send_email" (by decide)).2.2.2⟩

/-- Claim C6, confirmed: `get_next_to_publish` returns none exactly
when no NEW record exists, and otherwise the single oldest NEW record
by creation order with ties broken by insertion order: every NEW
record before it in insertion order is strictly newer, every one after
it is no older; for three NEW records A, B, C inserted in that order
it returns A, and after A is marked published it returns B. -/
theorem c6_get_next_to_publish_spec :
    (∀ store : List Eventing.EventLog,
      (Eventing.get_next_to_publish store = none ↔ ∀ r ∈ store, r.status ≠ "NEW") ∧
      (∀ r, Eventing.get_next_to_publish store = some r →
        r.status = "NEW" ∧ r ∈ store ∧
        ∃ l₁ l₂, Eventing.newRecords store = l₁ ++ r :: l₂ ∧
          (∀ s ∈ l₁, r.created_at < s.created_at) ∧
          (∀ s ∈ l₂, r.created_at ≤ s.created_at))) ∧
    Eventing.get_next_to_publish [Eventing.recA, Eventing.recB, Eventing.recC] =
      some Eventing.recA ∧
    Eventing.get_next_to_publish
      [Eventing.recA.mark_published 10, Eventing.recB, Eventing.recC] =
      some Eventing.recB := by
  refine ⟨fun store => ⟨?_, ?_⟩, ?_, ?_⟩
  · unfold Eventing.get_next_to_publish
    rw [Eventing.head?_orderByCreatedAt_eq_selectFirstMin,
      Eventing.selectFirstMin_eq_none_iff]
    unfold Eventing.newRecords
    rw [List.filter_eq_nil_iff]
    constructor
    · intro hh r hr
      simpa using hh r hr
    · intro hh r hr
      simpa using hh r hr
  · intro r hr
    unfold Eventing.get_next_to_publish at hr
    rw [Eventing.head?_orderByCreatedAt_eq_selectFirstMin] at hr
    obtain ⟨l₁, l₂, hdec, hlt, hle⟩ := Eventing.selectFirstMin_spec _ r hr
    have hmem : r ∈ Eventing.newRecords store := by
      rw [hdec]
      exact List.mem_append.mpr (Or.inr (List.mem_cons_self _ _))
    unfold Eventing.newRecords at hmem
    have hmem2 := List.mem_filter.mp hmem
    exact ⟨by simpa using hmem2.2, hmem2.1, l₁, l₂, hdec, hlt, hle⟩
  · rfl
  · rfl

/-- Witness for C6: the general characterization applied to the
concrete three record store. -/
theorem c6_witness :
    Eventing.recA.status = "NEW" ∧
    Eventing.recA ∈ [Eventing.recA, Eventing.recB, Eventing.recC] ∧
    ∃ l₁ l₂, Eventing.newRecords [Eventing.recA, Eventing.recB, Eventing.recC] =
        l₁ ++ Eventing.recA :: l₂ ∧
      (∀ s ∈ l₁, Eventing.recA.created_at < s.created_at) ∧
      (∀ s ∈ l₂, Eventing.recA.created_at ≤ s.created_at) :=
  ((c6_get_next_to_publish_spec).1 [Eventing.recA, Eventing.recB, Eventing.recC]).2
    Eventing.recA rfl
